import Mathlib

/-!
Shallow embedding of the notapy MIDI ⇄ CSV converter
(`src/notapy/converter.py`) and proofs of the specification's claims.

Modelling conventions:
* Python strings handled character-wise (`",".join`, `.split(",")`,
  `"," in s`) are modelled as `List Char`, with `joinComma` / `splitComma`
  mirroring Python's `str.join` / `str.split` on the one-character
  separator `,`.
* Python floats holding musical offsets/durations are modelled as `ℚ`;
  `round(x, 3)` is `round3`, round-half-to-even as in Python.
* A music21 element reaching the converter is modelled by `Element`;
  the branches mirror the dispatch in `_serialize_element_to_dict`
  (`isRest` / `isNote` / `isChord` / `isinstance(_, Unpitched)` / else:
  PercussionChord).  `substream` stands for a nested `Stream` container
  (only its `isStream` flag is ever read, thanks to Python's
  short-circuit `and` in the encode loop).
* music21's `hasattr(element, 'volume')` holds for every `NotRest`
  (Note, Chord, Unpitched, PercussionChord) and fails for `Rest` and
  `Stream`; `volume.velocity` itself is `Option ℤ` (music21 allows a
  `None` velocity).
* Failures propagate as `Except String`; a pandas missing/NaN velocity
  cell is modelled as `none`.
-/

namespace Notapy

/-- Python strings, modelled character-wise. -/
abbrev PStr := List Char

/-- The literal string `"Rest"`. -/
def restName : PStr := ['R', 'e', 's', 't']

/-- Python `",".join(parts)`. -/
def joinComma : List PStr → PStr
  | [] => []
  | [p] => p
  | p :: ps => p ++ ',' :: joinComma ps

/-- Python `s.split(",")`.  Like Python, always returns at least one
segment (`"".split(",") == [""]`). -/
def splitComma : PStr → List PStr
  | [] => [[]]
  | c :: rest =>
    if c = ',' then [] :: splitComma rest
    else
      match splitComma rest with
      | [] => [[c]]
      | p :: ps => (c :: p) :: ps

/-- Round a rational to the nearest integer, halves to even
(Python's banker rounding used by `round`). -/
def roundHalfEven (q : ℚ) : ℤ :=
  if q - ⌊q⌋ < 1 / 2 then ⌊q⌋
  else if 1 / 2 < q - ⌊q⌋ then ⌊q⌋ + 1
  else if ⌊q⌋ % 2 = 0 then ⌊q⌋ else ⌊q⌋ + 1

/-- Python `round(q, 3)`. -/
def round3 (q : ℚ) : ℚ := (roundHalfEven (q * 1000) : ℚ) / 1000

/-- A music21 element as seen by the converter: the constructors are the
disjoint cases distinguished by `_serialize_element_to_dict`, each with
the attributes the converter reads (`offset`, `duration.quarterLength`,
`volume.velocity` where present, `lyric`). -/
inductive Element where
  | note (name : PStr) (offset dur : ℚ) (velocity : Option ℤ) (lyric : PStr)
  | chord (pitchNames : List PStr) (offset dur : ℚ) (velocity : Option ℤ) (lyric : PStr)
  | rest (offset dur : ℚ) (lyric : PStr)
  | unpitched (displayName : PStr) (offset dur : ℚ) (velocity : Option ℤ) (lyric : PStr)
  | percussionChord (noteNames : List PStr) (offset dur : ℚ) (velocity : Option ℤ) (lyric : PStr)
  | substream (offset dur : ℚ)
deriving DecidableEq

namespace Element

/-- `element.isStream`. -/
def isStream : Element → Bool
  | substream _ _ => true
  | _ => false

/-- `element.offset`. -/
def offsetQ : Element → ℚ
  | note _ o _ _ _ => o
  | chord _ o _ _ _ => o
  | rest o _ _ => o
  | unpitched _ o _ _ _ => o
  | percussionChord _ o _ _ _ => o
  | substream o _ => o

/-- `element.duration.quarterLength`. -/
def durQ : Element → ℚ
  | note _ _ d _ _ => d
  | chord _ _ d _ _ => d
  | rest _ d _ => d
  | unpitched _ _ d _ _ => d
  | percussionChord _ _ d _ _ => d
  | substream _ d => d

/-- `element.lyric` (a Stream has no lyric attribute; the encode loop's
short-circuit `and` never reads it there, so any value will do). -/
def lyricStr : Element → PStr
  | note _ _ _ _ l => l
  | chord _ _ _ _ l => l
  | rest _ _ l => l
  | unpitched _ _ _ _ l => l
  | percussionChord _ _ _ _ l => l
  | substream _ _ => []

/-- `element.volume.velocity if hasattr(element, 'volume') else None`:
every `NotRest` has a `volume`, `Rest` and `Stream` do not. -/
def volumeVelocity : Element → Option ℤ
  | note _ _ _ v _ => v
  | chord _ _ _ v _ => v
  | rest _ _ _ => none
  | unpitched _ _ _ v _ => v
  | percussionChord _ _ _ v _ => v
  | substream _ _ => none

/-- Replace the element's offset (`element.offset = x`). -/
def withOffset (x : ℚ) : Element → Element
  | note n _ d v l => note n x d v l
  | chord ps _ d v l => chord ps x d v l
  | rest _ d l => rest x d l
  | unpitched n _ d v l => unpitched n x d v l
  | percussionChord ns _ d v l => percussionChord ns x d v l
  | substream _ d => substream x d

/-- The event kind, for stating claims about `kind` preservation. -/
inductive Kind where
  | note | chord | rest | unpitched | percussionChord | substream
deriving DecidableEq

/-- The kind tag of an element. -/
def kind : Element → Kind
  | note _ _ _ _ _ => .note
  | chord _ _ _ _ _ => .chord
  | rest _ _ _ => .rest
  | unpitched _ _ _ _ _ => .unpitched
  | percussionChord _ _ _ _ _ => .percussionChord
  | substream _ _ => .substream

/-- The ordered pitch spellings of an element (empty for Rest, the
display label for Unpitched, mirroring the spec's data model). -/
def pitchList : Element → List PStr
  | note n _ _ _ _ => [n]
  | chord ps _ _ _ _ => ps
  | rest _ _ _ => []
  | unpitched n _ _ _ _ => [n]
  | percussionChord ns _ _ _ _ => ns
  | substream _ _ => []

end Element

/-- One row of the CSV table. -/
structure Row where
  note_name : PStr
  start_time : ℚ
  duration : ℚ
  velocity : Option ℤ
  tempo : ℚ
deriving DecidableEq

/-- `_serialize_element_to_dict(element, {"tempo": tempo})`: the
kind dispatch producing `note_name`, the two roundings, and the
`hasattr` velocity read.  The `substream` case is unreachable in the
encode loop (filtered out before the call); Python would raise there. -/
def serialize_element_to_dict (e : Element) (tempo : ℚ) : Row :=
  let note_name : PStr :=
    match e with
    | .rest _ _ _ => restName
    | .note n _ _ _ _ => n
    | .chord ps _ _ _ _ => joinComma ps
    | .unpitched n _ _ _ _ => n
    | .percussionChord ns _ _ _ _ => joinComma ns
    | .substream _ _ => []
  { note_name := note_name
    start_time := round3 e.offsetQ
    duration := round3 e.durQ
    velocity := e.volumeVelocity
    tempo := tempo }

/-- `_deserialize_row_to_element(row)`: literal `"Rest"` → Rest; a comma
in `note_name` → Chord of the split pitch spellings (velocity never set:
music21's default `volume.velocity` is `None`); otherwise Note with
`volume.velocity = row['velocity']`.  A missing/NaN velocity (`none`)
on the Note branch is the error condition the spec calls SchemaError
(in the running system the NaN velocity makes the eventual MIDI write
fail, so the conversion fails either way).  Pitch-spelling parsing by
music21 is the identity on spellings (adapter treated as a black box).
The `additional_fields` half of the Python return value is discarded by
the only caller and is omitted. -/
def deserialize_row_to_element (row : Row) : Except String Element :=
  if row.note_name = restName then
    .ok (.rest row.start_time row.duration [])
  else if ',' ∈ row.note_name then
    .ok (.chord (splitComma row.note_name) row.start_time row.duration none [])
  else
    match row.velocity with
    | some v => .ok (.note row.note_name row.start_time row.duration (some v) [])
    | none => .error "velocity"

/-- A decoded source stream as `_midi_to_csv` sees it: the numbers of
`stream.metronomeMarkBoundaries()` (third components) and the flattened
`stream.recurse().notesAndRests` traversal, in traversal order. -/
structure SourceStream where
  tempos : List ℚ
  elements : List Element
deriving DecidableEq

/-- `stream.metronomeMarkBoundaries()[0][2].number if ... else 120`. -/
def streamTempo (s : SourceStream) : ℚ := s.tempos.head?.getD 120

/-- The row-building loop of `_midi_to_csv`: each element passing
`not element.isStream and not element.lyric` appends one serialized row
to the accumulated table. -/
def midiToCsvLoop (tempo : ℚ) : List Element → List Row → List Row
  | [], df => df
  | e :: rest, df =>
    if !e.isStream && e.lyricStr.isEmpty then
      midiToCsvLoop tempo rest (df ++ [serialize_element_to_dict e tempo])
    else
      midiToCsvLoop tempo rest df

/-- The table produced by `_midi_to_csv` from a decoded stream (the
pure core: decode and the final file write are modelled separately). -/
def midi_to_csv_rows (s : SourceStream) : List Row :=
  midiToCsvLoop (streamTempo s) s.elements []

/-- The row loop of `_csv_to_midi`: deserialize each row in table
order; the first failure aborts the whole conversion (the exception
propagates to the outermost handler). -/
def deserializeRows : List Row → Except String (List Element)
  | [] => .ok []
  | r :: rs =>
    match deserialize_row_to_element r with
    | .error e => .error e
    | .ok el =>
      match deserializeRows rs with
      | .error e => .error e
      | .ok els => .ok (el :: els)

/-- The stream built by `_csv_to_midi`: an optional MetronomeMark (from
the first row's `tempo`, only when the table is non-empty) plus the
deserialized events, each carrying its own offset (`stream.insert`
places them at those offsets). -/
structure MStream where
  tempoMark : Option ℚ
  events : List Element
deriving DecidableEq

/-- The pure core of `_csv_to_midi` on an already-read table. -/
def csv_to_midi_stream (table : List Row) : Except String MStream :=
  match deserializeRows table with
  | .error e => .error e
  | .ok els => .ok { tempoMark := table.head?.map Row.tempo, events := els }

/-- `stream.highestTime`: the largest end offset of any element, `0`
for an empty stream. -/
def highestTime (es : List Element) : ℚ :=
  es.foldl (fun m e => max m (e.offsetQ + e.durQ)) 0

/-- Shift one element later by `d` (what flattening a stream nested at
offset `d` does to its events). -/
def shiftElement (d : ℚ) (e : Element) : Element :=
  e.withOffset (e.offsetQ + d)

/-- The loop of `_combine_midis` on successfully decoded streams:
`combined_stream.append(stream)` places each whole stream at the
accumulated stream's `highestTime`, so after flattening its events are
shifted by that amount. -/
def combineStreams (streams : List (List Element)) : List Element :=
  streams.foldl (fun combined s =>
    combined ++ s.map (shiftElement (highestTime combined))) []

/-- `_combine_midis` with per-file decode outcomes: a failed decode is
caught inside the loop, one error is logged, and the file is skipped.
Returns the combined events and the number of logged per-file errors. -/
def combine_midis_run (files : List (Except String (List Element))) :
    List Element × ℕ :=
  files.foldl (fun acc f =>
    match f with
    | .ok s => (acc.1 ++ s.map (shiftElement (highestTime acc.1)), acc.2)
    | .error _ => (acc.1, acc.2 + 1)) ([], 0)

/-- Outcome of one guarded conversion call: what was written (if
anything), whether an error was logged, and whether an exception
escaped to the caller. -/
structure RunOutcome (α : Type) where
  written : Option α
  loggedError : Bool
  raisedToCaller : Bool
deriving DecidableEq

/-- `try: body ... except Exception as e: logging.error(...)` — the
outermost handler of the single-file conversions. -/
def runCaught {α : Type} (body : Except String α) : RunOutcome α :=
  match body with
  | .ok a => { written := some a, loggedError := false, raisedToCaller := false }
  | .error _ => { written := none, loggedError := true, raisedToCaller := false }

/-- Body of `_midi_to_csv`: decode the MIDI file (may fail), build the
table, write it (the write may fail; it either writes the full table or
raises — `df.to_csv` is the last statement). -/
def midiToCsvBody (decoded : Except String SourceStream) (writeOk : Bool) :
    Except String (List Row) :=
  match decoded with
  | .error e => .error e
  | .ok s => if writeOk then .ok (midi_to_csv_rows s) else .error "write"

/-- `_midi_to_csv` as the caller sees it. -/
def midi_to_csv_run (decoded : Except String SourceStream) (writeOk : Bool) :
    RunOutcome (List Row) :=
  runCaught (midiToCsvBody decoded writeOk)

/-- Body of `_csv_to_midi`: read the CSV (may fail), build the stream
(a bad row may fail), write the MIDI file (may fail). -/
def csvToMidiBody (parsed : Except String (List Row)) (writeOk : Bool) :
    Except String MStream :=
  match parsed with
  | .error e => .error e
  | .ok table =>
    match csv_to_midi_stream table with
    | .error e => .error e
    | .ok st => if writeOk then .ok st else .error "write"

/-- `_csv_to_midi` as the caller sees it. -/
def csv_to_midi_run (parsed : Except String (List Row)) (writeOk : Bool) :
    RunOutcome MStream :=
  runCaught (csvToMidiBody parsed writeOk)

/-- Write a named file into a directory (modelled as a listing of
name/content pairs): overwrite the existing entry or append a new one. -/
def writeFile {α : Type} : List (PStr × α) → PStr → α → List (PStr × α)
  | [], n, x => [(n, x)]
  | f :: d, n, x => if f.1 = n then (n, x) :: d else f :: writeFile d n x

/-- Read a named file from a directory listing. -/
def lookupFile {α : Type} (dir : List (PStr × α)) (name : PStr) : Option α :=
  (dir.find? (fun f => f.1 = name)).map Prod.snd

/-- Python `f.endswith('.csv')`. -/
def csvExt (n : PStr) : Bool := List.isSuffixOf ['.', 'c', 's', 'v'] n

/-- Python `f.endswith('.mid')`. -/
def midExt (n : PStr) : Bool := List.isSuffixOf ['.', 'm', 'i', 'd'] n

/-- The file name `combined.csv`. -/
def combinedCsvName : PStr :=
  ['c', 'o', 'm', 'b', 'i', 'n', 'e', 'd', '.', 'c', 's', 'v']

/-- The file name `combined.mid`. -/
def combinedMidName : PStr :=
  ['c', 'o', 'm', 'b', 'i', 'n', 'e', 'd', '.', 'm', 'i', 'd']

/-- What one `_midi_to_csv(midi_file, csv_output_path)` call in the
directory loop leaves in the output directory: the full table on
success, nothing on a (caught) failure. -/
def midiFileOutput (decoded : Except String SourceStream) : Option (List Row) :=
  match decoded with
  | .ok s => some (midi_to_csv_rows s)
  | .error _ => none

/-- One iteration of a directory-mode loop: convert the file (the
conversion leaves `some` content or, having caught a failure, `none`)
and write the content, if any, under the file's output name. -/
def writeStep {α β : Type} (g : β → Option α) (d : List (PStr × α))
    (q : PStr × β) : List (PStr × α) :=
  match g q.2 with
  | some x => writeFile d q.1 x
  | none => d

/-- The per-file phase of `midi_to_csv` in directory mode: every input
MIDI file (given with its target output name and its decode outcome) is
converted into the output directory; a failed conversion writes
nothing. -/
def midiToCsvDirPhase1 (inputs : List (PStr × Except String SourceStream))
    (dir0 : List (PStr × List Row)) : List (PStr × List Row) :=
  inputs.foldl (writeStep midiFileOutput) dir0

/-- `midi_to_csv` in directory mode: per-file conversions, then — when
`combine_output` is set and more than one input file matched — a
combined table concatenated (`pd.concat`) from every `.csv` file found
by listing the output directory at combine time. -/
def midi_to_csv_dir (inputs : List (PStr × Except String SourceStream))
    (dir0 : List (PStr × List Row)) (combine_output : Bool) :
    List (PStr × List Row) :=
  if combine_output = true ∧ 1 < inputs.length then
    writeFile (midiToCsvDirPhase1 inputs dir0) combinedCsvName
      (((midiToCsvDirPhase1 inputs dir0).filter fun f => csvExt f.1).map
          Prod.snd).flatten
  else midiToCsvDirPhase1 inputs dir0

/-- What one `_csv_to_midi(csv_file, midi_output_path)` call in the
directory loop leaves in the output directory: the events of the built
stream on success, nothing on a (caught) failure. -/
def csvFileOutput (parsed : Except String (List Row)) : Option (List Element) :=
  match parsed with
  | .ok table =>
    match csv_to_midi_stream table with
    | .ok st => some st.events
    | .error _ => none
  | .error _ => none

/-- The per-file phase of `csv_to_midi` in directory mode; a failed
read or conversion writes nothing. -/
def csvToMidiDirPhase1 (inputs : List (PStr × Except String (List Row)))
    (dir0 : List (PStr × List Element)) : List (PStr × List Element) :=
  inputs.foldl (writeStep csvFileOutput) dir0

/-- `csv_to_midi` in directory mode: per-file conversions, then — when
`combine_output` is set and more than one input file matched — a
combined MIDI built by `_combine_midis` over every `.mid` file found by
listing the output directory at combine time (re-decoding a just
written file is the identity in this model). -/
def csv_to_midi_dir (inputs : List (PStr × Except String (List Row)))
    (dir0 : List (PStr × List Element)) (combine_output : Bool) :
    List (PStr × List Element) :=
  if combine_output = true ∧ 1 < inputs.length then
    writeFile (csvToMidiDirPhase1 inputs dir0) combinedMidName
      (combineStreams
        (((csvToMidiDirPhase1 inputs dir0).filter fun f => midExt f.1).map
          Prod.snd))
  else csvToMidiDirPhase1 inputs dir0

/-- A pitch spelling as music21 prints one: non-empty, free of the
comma separator, and distinct from the sentinel `"Rest"`. -/
def validPitchName (p : PStr) : Prop := p ≠ [] ∧ ',' ∉ p ∧ p ≠ restName

instance : DecidablePred validPitchName := fun p => by
  unfold validPitchName; infer_instance

/-- A well-formed Note, Chord, or Rest event, as the spec's data model
describes them (single valid spelling and a velocity for Note, at
least two valid spellings for Chord) and with no lyric annotation. -/
def wellFormedNCR : Element → Prop
  | .note n _ _ v l => validPitchName n ∧ v.isSome = true ∧ l = []
  | .chord ps _ _ _ l => 2 ≤ ps.length ∧ (∀ p ∈ ps, validPitchName p) ∧ l = []
  | .rest _ _ l => l = []
  | _ => False

instance : DecidablePred wellFormedNCR := fun e => by
  cases e <;> (unfold wellFormedNCR; infer_instance)

/-- The round-trip relation the claim asserts: same kind, same pitches
in the same order, start time and duration preserved within `0.001`,
and the original velocity preserved for Note and Chord events. -/
def matchesClaim (orig dec : Element) : Prop :=
  orig.kind = dec.kind ∧ orig.pitchList = dec.pitchList ∧
  |dec.offsetQ - orig.offsetQ| ≤ 1 / 1000 ∧
  |dec.durQ - orig.durQ| ≤ 1 / 1000 ∧
  (orig.kind = .note ∨ orig.kind = .chord →
    dec.volumeVelocity = orig.volumeVelocity)

instance (orig dec : Element) : Decidable (matchesClaim orig dec) := by
  unfold matchesClaim; infer_instance

/-- The round-trip relation the code actually provides: as
`matchesClaim`, but velocity is only preserved for Note events (the
decode path constructs Chords without setting a velocity). -/
def matchesAmended (orig dec : Element) : Prop :=
  orig.kind = dec.kind ∧ orig.pitchList = dec.pitchList ∧
  |dec.offsetQ - orig.offsetQ| ≤ 1 / 1000 ∧
  |dec.durQ - orig.durQ| ≤ 1 / 1000 ∧
  (orig.kind = .note → dec.volumeVelocity = orig.volumeVelocity)

instance (orig dec : Element) : Decidable (matchesAmended orig dec) := by
  unfold matchesAmended; infer_instance

/-- What decoding the encoded row of a well-formed Note/Chord/Rest
element yields: times rounded, Note velocity kept, Chord velocity
dropped, lyric cleared.  (On other elements the value is irrelevant.) -/
def decodedOf (e : Element) : Element :=
  match e with
  | .note n o d v _ => .note n (round3 o) (round3 d) v []
  | .chord ps o d _ _ => .chord ps (round3 o) (round3 d) none []
  | .rest o d _ => .rest (round3 o) (round3 d) []
  | x => x

/-- Rewrite the `tempo` field of every row after the first. -/
def retempoTail (g : Row → ℚ) : List Row → List Row
  | [] => []
  | r :: rs => r :: rs.map (fun x => { x with tempo := g x })

/-! ### Helper lemmas -/

theorem roundHalfEven_sub_le (q : ℚ) : |(roundHalfEven q : ℚ) - q| ≤ 1 / 2 := by
  have h1 : ((⌊q⌋ : ℤ) : ℚ) ≤ q := Int.floor_le q
  have h2 : q < ⌊q⌋ + 1 := Int.lt_floor_add_one q
  unfold roundHalfEven
  split_ifs with ha hb hc
  · rw [abs_le]; constructor <;> linarith
  · rw [abs_le]; push_cast; constructor <;> linarith
  · rw [abs_le]
    constructor <;> linarith [not_lt.mp ha]
  · rw [abs_le]; push_cast
    constructor <;> linarith [not_lt.mp hb]

theorem round3_sub_le (q : ℚ) : |round3 q - q| ≤ 1 / 1000 := by
  have h := roundHalfEven_sub_le (q * 1000)
  rw [abs_le] at h ⊢
  unfold round3
  obtain ⟨h1, h2⟩ := h
  constructor <;> linarith

theorem splitComma_of_not_mem : ∀ p : PStr, ',' ∉ p → splitComma p = [p]
  | [], _ => rfl
  | c :: rest, h => by
    have hc : ¬c = ',' := fun e => h (e ▸ List.mem_cons_self c rest)
    have hr : ',' ∉ rest := fun m => h (List.mem_cons_of_mem _ m)
    unfold splitComma
    rw [if_neg hc, splitComma_of_not_mem rest hr]

theorem splitComma_append_cons : ∀ p t : PStr, ',' ∉ p →
    splitComma (p ++ ',' :: t) = p :: splitComma t
  | [], t, _ => by simp [splitComma]
  | c :: p, t, h => by
    have hc : ¬c = ',' := fun e => h (e ▸ List.mem_cons_self c p)
    have hp : ',' ∉ p := fun m => h (List.mem_cons_of_mem _ m)
    show (if c = ',' then [] :: splitComma (p ++ ',' :: t)
          else match splitComma (p ++ ',' :: t) with
            | [] => [[c]]
            | q :: qs => (c :: q) :: qs) = (c :: p) :: splitComma t
    rw [if_neg hc, splitComma_append_cons p t hp]

theorem splitComma_joinComma : ∀ ps : List PStr, ps ≠ [] →
    (∀ p ∈ ps, ',' ∉ p) → splitComma (joinComma ps) = ps
  | [], h0, _ => absurd rfl h0
  | [p], _, h => by
    unfold joinComma
    exact splitComma_of_not_mem p (h p (List.mem_singleton.mpr rfl))
  | p :: q :: ps, _, h => by
    show splitComma (p ++ ',' :: joinComma (q :: ps)) = p :: (q :: ps)
    rw [splitComma_append_cons p _ (h p (List.mem_cons_self p _)),
      splitComma_joinComma (q :: ps) (by simp)
        (fun x hx => h x (List.mem_cons_of_mem _ hx))]

theorem comma_mem_joinComma (p q : PStr) (ps : List PStr) :
    ',' ∈ joinComma (p :: q :: ps) := by
  show ',' ∈ p ++ ',' :: joinComma (q :: ps)
  exact List.mem_append_right p (List.mem_cons_self _ _)

theorem comma_not_mem_restName : ',' ∉ restName := by decide

theorem midiToCsvLoop_eq (t : ℚ) : ∀ (es : List Element) (df : List Row),
    midiToCsvLoop t es df =
      df ++ (es.filter fun e => !e.isStream && e.lyricStr.isEmpty).map
        (fun e => serialize_element_to_dict e t)
  | [], df => by simp [midiToCsvLoop]
  | e :: es, df => by
    unfold midiToCsvLoop
    rw [List.filter_cons]
    by_cases hc : (!e.isStream && e.lyricStr.isEmpty) = true
    · rw [if_pos hc, if_pos hc, midiToCsvLoop_eq t es]
      simp
    · rw [if_neg hc, if_neg hc, midiToCsvLoop_eq t es]

theorem roundtrip_element (t : ℚ) (e : Element) (he : wellFormedNCR e) :
    deserialize_row_to_element (serialize_element_to_dict e t) =
      .ok (decodedOf e) := by
  cases e with
  | note n o d v l =>
    simp only [wellFormedNCR] at he
    obtain ⟨⟨hne, hnc, hnr⟩, hv, rfl⟩ := he
    obtain ⟨x, rfl⟩ := Option.isSome_iff_exists.mp hv
    show deserialize_row_to_element
        ⟨n, round3 o, round3 d, some x, t⟩ =
      .ok (.note n (round3 o) (round3 d) (some x) [])
    unfold deserialize_row_to_element
    rw [if_neg hnr, if_neg hnc]
  | chord ps o d v l =>
    simp only [wellFormedNCR] at he
    obtain ⟨hlen, hps, rfl⟩ := he
    obtain ⟨p, q, ps', rfl⟩ : ∃ p q ps', ps = p :: q :: ps' := by
      match ps, hlen with
      | p :: q :: ps', _ => exact ⟨p, q, ps', rfl⟩
    have hcm : ',' ∈ joinComma (p :: q :: ps') := comma_mem_joinComma p q ps'
    have hnr : ¬joinComma (p :: q :: ps') = restName := fun hEq =>
      comma_not_mem_restName (hEq ▸ hcm)
    show deserialize_row_to_element
        ⟨joinComma (p :: q :: ps'), round3 o, round3 d, v, t⟩ =
      .ok (.chord (p :: q :: ps') (round3 o) (round3 d) none [])
    unfold deserialize_row_to_element
    rw [if_neg hnr, if_pos hcm,
      splitComma_joinComma _ (by simp) (fun x hx => (hps x hx).2.1)]
  | rest o d l =>
    show deserialize_row_to_element ⟨restName, round3 o, round3 d, none, t⟩ =
      .ok (.rest (round3 o) (round3 d) [])
    unfold deserialize_row_to_element
    rw [if_pos rfl]
  | unpitched n o d v l => exact absurd he (by simp [wellFormedNCR])
  | percussionChord ns o d v l => exact absurd he (by simp [wellFormedNCR])
  | substream o d => exact absurd he (by simp [wellFormedNCR])

theorem matchesAmended_decodedOf (e : Element) (he : wellFormedNCR e) :
    matchesAmended e (decodedOf e) := by
  cases e with
  | note n o d v l =>
    exact ⟨rfl, rfl, round3_sub_le o, round3_sub_le d, fun _ => rfl⟩
  | chord ps o d v l =>
    exact ⟨rfl, rfl, round3_sub_le o, round3_sub_le d,
      fun h => Element.Kind.noConfusion h⟩
  | rest o d l =>
    exact ⟨rfl, rfl, round3_sub_le o, round3_sub_le d,
      fun h => Element.Kind.noConfusion h⟩
  | unpitched n o d v l => exact absurd he (by simp [wellFormedNCR])
  | percussionChord ns o d v l => exact absurd he (by simp [wellFormedNCR])
  | substream o d => exact absurd he (by simp [wellFormedNCR])

theorem deserializeRows_map_serialize (t : ℚ) :
    ∀ es : List Element, (∀ e ∈ es, wellFormedNCR e) →
      deserializeRows (es.map fun e => serialize_element_to_dict e t) =
        .ok (es.map decodedOf)
  | [], _ => rfl
  | e :: es, h => by
    rw [List.map_cons, List.map_cons]
    unfold deserializeRows
    rw [roundtrip_element t e (h e (List.mem_cons_self e es)),
      deserializeRows_map_serialize t es
        (fun x hx => h x (List.mem_cons_of_mem e hx))]

theorem retempo_deserialize (x : Row) (c : ℚ) :
    deserialize_row_to_element { x with tempo := c } =
      deserialize_row_to_element x := rfl

theorem deserializeRows_retempo (g : Row → ℚ) :
    ∀ rs : List Row,
      deserializeRows (rs.map fun x => { x with tempo := g x }) =
        deserializeRows rs
  | [] => rfl
  | r :: rs => by
    rw [List.map_cons]
    unfold deserializeRows
    rw [retempo_deserialize r (g r), deserializeRows_retempo g rs]

theorem shiftElement_offsetQ (d : ℚ) (e : Element) :
    (shiftElement d e).offsetQ = e.offsetQ + d := by
  cases e <;> rfl

theorem shiftElement_zero (e : Element) : shiftElement 0 e = e := by
  cases e <;> simp [shiftElement, Element.withOffset, Element.offsetQ]

theorem foldl_max_le_init (es : List Element) (m : ℚ) :
    m ≤ es.foldl (fun acc e => max acc (e.offsetQ + e.durQ)) m := by
  induction es generalizing m with
  | nil => exact le_refl m
  | cons e es ih => exact le_trans (le_max_left _ _) (ih _)

theorem mem_le_foldl_max :
    ∀ (es : List Element) (m : ℚ) (a : Element), a ∈ es →
      a.offsetQ + a.durQ ≤
        es.foldl (fun acc e => max acc (e.offsetQ + e.durQ)) m
  | [], _, a, ha => absurd ha (List.not_mem_nil a)
  | e :: es, m, a, ha => by
    rcases List.mem_cons.mp ha with rfl | ha'
    · exact le_trans (le_max_right m _) (foldl_max_le_init es _)
    · exact mem_le_foldl_max es _ a ha'

theorem mem_le_highestTime (es : List Element) (a : Element) (ha : a ∈ es) :
    a.offsetQ + a.durQ ≤ highestTime es :=
  mem_le_foldl_max es 0 a ha

theorem mem_writeFile_of_ne {α : Type} :
    ∀ (d : List (PStr × α)) (n : PStr) (x : α) (p : PStr) (c : α),
      (p, c) ∈ d → p ≠ n → (p, c) ∈ writeFile d n x
  | [], _, _, _, _, h, _ => absurd h (List.not_mem_nil _)
  | f :: d, n, x, p, c, h, hne => by
    unfold writeFile
    by_cases hf : f.1 = n
    · rw [if_pos hf]
      rcases List.mem_cons.mp h with rfl | hd
      · exact absurd hf hne
      · exact List.mem_cons_of_mem _ hd
    · rw [if_neg hf]
      rcases List.mem_cons.mp h with rfl | hd
      · exact List.mem_cons_self _ _
      · exact List.mem_cons_of_mem _ (mem_writeFile_of_ne d n x p c hd hne)

theorem lookupFile_writeFile_self {α : Type} :
    ∀ (d : List (PStr × α)) (n : PStr) (x : α),
      lookupFile (writeFile d n x) n = some x
  | [], n, x => by
    show lookupFile [(n, x)] n = some x
    unfold lookupFile
    rw [List.find?_cons_of_pos _ (by simp)]
    rfl
  | f :: d, n, x => by
    unfold writeFile
    by_cases hf : f.1 = n
    · rw [if_pos hf]
      unfold lookupFile
      rw [List.find?_cons_of_pos _ (by simp)]
      rfl
    · rw [if_neg hf]
      unfold lookupFile
      rw [List.find?_cons_of_neg _ (by simp [hf])]
      exact lookupFile_writeFile_self d n x

theorem mem_foldl_write {α β : Type} (g : β → Option α) :
    ∀ (inputs : List (PStr × β)) (d : List (PStr × α)) (p : PStr) (c : α),
      (p, c) ∈ d → (∀ q ∈ inputs, q.1 ≠ p) →
      (p, c) ∈ inputs.foldl (writeStep g) d
  | [], _, _, _, h, _ => h
  | i :: is, d, p, c, h, hf => by
    rw [List.foldl_cons]
    apply mem_foldl_write g is _ p c _
      (fun q hq => hf q (List.mem_cons_of_mem i hq))
    unfold writeStep
    cases hg : g i.2 with
    | none => simpa [hg] using h
    | some x =>
      simp only [hg]
      exact mem_writeFile_of_ne d i.1 x p c h
        (Ne.symm (hf i (List.mem_cons_self i is)))

theorem deserialize_kind (r : Row) (el : Element)
    (h : deserialize_row_to_element r = .ok el) :
    el.kind = .rest ∨ el.kind = .chord ∨ el.kind = .note := by
  unfold deserialize_row_to_element at h
  split_ifs at h with h1 h2
  · simp only [Except.ok.injEq] at h
    subst h; exact Or.inl rfl
  · simp only [Except.ok.injEq] at h
    subst h; exact Or.inr (Or.inl rfl)
  · revert h
    cases r.velocity with
    | none => intro h; exact absurd h (by simp)
    | some v =>
      intro h
      simp only [Except.ok.injEq] at h
      subst h; exact Or.inr (Or.inr rfl)

theorem map_shiftElement_zero (A : List Element) :
    A.map (shiftElement 0) = A := by
  induction A with
  | nil => rfl
  | cons a A ih => rw [List.map_cons, shiftElement_zero, ih]

/-! ### Claims -/

/-- Concrete chord (velocity 90) used to refute the round-trip claim. -/
def cexChord : Element := .chord [['C', '4'], ['E', '4']] 0 1 (some 90) []

/-- The source stream holding just `cexChord`. -/
def cexStream : SourceStream := ⟨[], [cexChord]⟩

/-- What the round trip makes of `cexChord`: the velocity is gone. -/
def cexDecoded : Element :=
  .chord [['C', '4'], ['E', '4']] (round3 0) (round3 1) none []

/-- C1, counterexample: encoding the one-chord stream `cexStream`
(a Chord of C4 and E4 with velocity 90) and decoding the table back
yields exactly one Chord event whose velocity is `none`, so the claimed
relation (velocity preserved for Note and Chord events) fails at this
stream. -/
theorem c1_roundtrip_counterexample :
    csv_to_midi_stream (midi_to_csv_rows cexStream) =
      .ok ⟨some 120, [cexDecoded]⟩ ∧
    ¬matchesClaim cexChord cexDecoded := by
  constructor
  · rfl
  · intro hm
    exact Option.noConfusion (hm.2.2.2.2 (Or.inr rfl))

/-- C1, amended: for every stream of Note, Chord, and Rest events with
no lyric annotations, valid pitch spellings, at least two pitches per
chord, and a velocity on every Note, encoding to a table and decoding
back yields a stream whose events have the same kind, the same pitches
in the same order, start time and duration within 0.001, and — for
Note events — the same velocity; Chord velocity is not restored. -/
theorem c1_roundtrip_amended (s : SourceStream)
    (h : ∀ e ∈ s.elements, wellFormedNCR e) :
    ∃ st : MStream,
      csv_to_midi_stream (midi_to_csv_rows s) = .ok st ∧
        List.Forall₂ matchesAmended s.elements st.events := by
  have hpass : ∀ e ∈ s.elements,
      (!e.isStream && e.lyricStr.isEmpty) = true := by
    intro e he
    have hw := h e he
    cases e with
    | note n o d v l =>
      simp only [wellFormedNCR] at hw
      obtain ⟨-, -, rfl⟩ := hw
      rfl
    | chord ps o d v l =>
      simp only [wellFormedNCR] at hw
      obtain ⟨-, -, rfl⟩ := hw
      rfl
    | rest o d l =>
      simp only [wellFormedNCR] at hw
      subst hw
      rfl
    | unpitched n o d v l => exact absurd hw (by simp [wellFormedNCR])
    | percussionChord ns o d v l => exact absurd hw (by simp [wellFormedNCR])
    | substream o d => exact absurd hw (by simp [wellFormedNCR])
  have hrows : midi_to_csv_rows s =
      s.elements.map fun e => serialize_element_to_dict e (streamTempo s) := by
    rw [midi_to_csv_rows, midiToCsvLoop_eq, List.nil_append,
      List.filter_eq_self.mpr hpass]
  refine ⟨⟨(s.elements.map fun e =>
      serialize_element_to_dict e (streamTempo s)).head?.map Row.tempo,
      s.elements.map decodedOf⟩, ?_, ?_⟩
  · unfold csv_to_midi_stream
    rw [hrows, deserializeRows_map_serialize _ _ h]
  · rw [List.forall₂_map_right_iff, List.forall₂_same]
    exact fun e he => matchesAmended_decodedOf e (h e he)

/-- A well-formed Note used by several witnesses. -/
def wfNote : Element := .note ['C', '4'] 0 1 (some 64) []

/-- A well-formed two-pitch Chord used by witnesses. -/
def wfChordEl : Element := .chord [['C', '4'], ['E', '4']] 1 1 (some 80) []

/-- A Rest used by witnesses. -/
def wfRestEl : Element := .rest 2 1 []

/-- A well-formed three-event source stream with tempo 90. -/
def wfStream : SourceStream := ⟨[90], [wfNote, wfChordEl, wfRestEl]⟩

/-- C1 witness: the amended round trip at the concrete stream
`wfStream`. -/
theorem c1_roundtrip_amended_witness :
    (∀ e ∈ wfStream.elements, wellFormedNCR e) ∧
    ∃ st : MStream,
      csv_to_midi_stream (midi_to_csv_rows wfStream) = .ok st ∧
        List.Forall₂ matchesAmended wfStream.elements st.events :=
  ⟨by decide, c1_roundtrip_amended wfStream (by decide)⟩

/-- C2: every row of an encoded table carries the stream's single tempo
(the first metronome-mark boundary's number), which is 120 when the
source stream has no tempo marking. -/
theorem c2_tempo_propagation (s : SourceStream) (r : Row)
    (hr : r ∈ midi_to_csv_rows s) :
    r.tempo = streamTempo s ∧ streamTempo s = s.tempos.head?.getD 120 ∧
      (s.tempos = [] → r.tempo = 120) := by
  have ht : r.tempo = streamTempo s := by
    rw [midi_to_csv_rows, midiToCsvLoop_eq, List.nil_append] at hr
    obtain ⟨e, -, rfl⟩ := List.mem_map.mp hr
    rfl
  refine ⟨ht, rfl, fun h0 => ?_⟩
  rw [ht]
  unfold streamTempo
  rw [h0]
  rfl

/-- C2 witness: the tempo-propagation theorem at the first row of the
concrete stream `wfStream`. -/
theorem c2_tempo_propagation_witness :
    (serialize_element_to_dict wfNote (streamTempo wfStream)).tempo =
        streamTempo wfStream ∧
      streamTempo wfStream = wfStream.tempos.head?.getD 120 ∧
      (wfStream.tempos = [] →
        (serialize_element_to_dict wfNote (streamTempo wfStream)).tempo =
          120) :=
  c2_tempo_propagation wfStream _ (List.mem_cons_self _ _)

/-- C3: an event that is a sub-stream or carries non-empty lyric text
produces no row; every other event produces exactly one row, in
traversal order, so the table is exactly the filtered traversal mapped
through the serializer. -/
theorem c3_filtering (s : SourceStream) :
    midi_to_csv_rows s =
      (s.elements.filter fun e => !e.isStream && e.lyricStr.isEmpty).map
        fun e => serialize_element_to_dict e (streamTempo s) := by
  rw [midi_to_csv_rows, midiToCsvLoop_eq, List.nil_append]

/-- C4: a row whose `note_name` has no comma and is not `"Rest"` always
decodes to a Note when it decodes at all; no row ever decodes to an
Unpitched event; and the row serialized from an Unpitched event (which
the encode direction does emit) decodes to a Note, so Unpitched does
not round-trip. -/
theorem c4_bare_names_decode_to_note :
    (∀ (r : Row) (el : Element), ',' ∉ r.note_name → r.note_name ≠ restName →
        deserialize_row_to_element r = .ok el → el.kind = .note) ∧
    (∀ (r : Row) (el : Element), deserialize_row_to_element r = .ok el →
        el.kind ≠ .unpitched) ∧
    (∀ (n : PStr) (o d : ℚ) (x : ℤ) (l : PStr) (t : ℚ), validPitchName n →
        serialize_element_to_dict (.unpitched n o d (some x) l) t =
            ⟨n, round3 o, round3 d, some x, t⟩ ∧
          deserialize_row_to_element
              (serialize_element_to_dict (.unpitched n o d (some x) l) t) =
            .ok (.note n (round3 o) (round3 d) (some x) []) ∧
          (Element.note n (round3 o) (round3 d) (some x) []).kind ≠
            .unpitched) := by
  refine ⟨?_, ?_, ?_⟩
  · intro r el hnc hnr h
    unfold deserialize_row_to_element at h
    rw [if_neg hnr, if_neg hnc] at h
    revert h
    cases r.velocity with
    | none => intro h; exact absurd h (by simp)
    | some v =>
      intro h
      simp only [Except.ok.injEq] at h
      subst h
      rfl
  · intro r el h
    rcases deserialize_kind r el h with hk | hk | hk <;> rw [hk] <;>
      exact fun hh => Element.Kind.noConfusion hh
  · intro n o d x l t hval
    obtain ⟨hne, hnc, hnr⟩ := hval
    refine ⟨rfl, ?_, fun hh => Element.Kind.noConfusion hh⟩
    show deserialize_row_to_element ⟨n, round3 o, round3 d, some x, t⟩ = _
    unfold deserialize_row_to_element
    rw [if_neg hnr, if_neg hnc]

/-- C4 witness: a bare-named row decodes to a Note, and the serialized
Unpitched element `B2` decodes to a Note. -/
theorem c4_bare_names_decode_to_note_witness :
    (Element.note ['C', '4'] (0 : ℚ) 1 (some 64) []).kind = .note ∧
    deserialize_row_to_element
        (serialize_element_to_dict (.unpitched ['B', '2'] 0 1 (some 64) [])
          120) =
      .ok (.note ['B', '2'] (round3 0) (round3 1) (some 64) []) :=
  ⟨c4_bare_names_decode_to_note.1 ⟨['C', '4'], 0, 1, some 64, 120⟩
      (.note ['C', '4'] 0 1 (some 64) []) (by decide) (by decide) rfl,
    (c4_bare_names_decode_to_note.2.2 ['B', '2'] 0 1 64 [] 120
        (by decide)).2.1⟩

/-- C5: combining streams A and B (in that order) keeps A in place,
shifts every event of B by A's highest time — so each starts at or
after A's extent, in particular after the end of every event of A —
and keeps B's events in their original relative order (they appear as
the `map` image of B, after A). -/
theorem c5_combination (A B : List Element)
    (hB : ∀ e ∈ B, 0 ≤ e.offsetQ) :
    combineStreams [A, B] = A ++ B.map (shiftElement (highestTime A)) ∧
      (∀ e ∈ B, highestTime A ≤ (shiftElement (highestTime A) e).offsetQ) ∧
      ∀ a ∈ A, ∀ e ∈ B,
        a.offsetQ + a.durQ ≤ (shiftElement (highestTime A) e).offsetQ := by
  refine ⟨?_, ?_, ?_⟩
  · show ([] ++ A.map (shiftElement (highestTime ([] : List Element)))) ++
        B.map (shiftElement (highestTime
          ([] ++ A.map (shiftElement (highestTime ([] : List Element)))))) =
      A ++ B.map (shiftElement (highestTime A))
    have h0 : highestTime ([] : List Element) = 0 := rfl
    rw [h0]
    simp only [List.nil_append, map_shiftElement_zero]
  · intro e he
    rw [shiftElement_offsetQ]
    have h1 := hB e he
    linarith
  · intro a ha e he
    rw [shiftElement_offsetQ]
    have h1 := mem_le_highestTime A a ha
    have h2 := hB e he
    linarith

/-- Stream A for the C5 witness: one whole note at offset 0. -/
def cA : List Element := [.note ['C', '4'] 0 4 (some 64) []]

/-- Stream B for the C5 witness: two events at offset 0. -/
def cB : List Element :=
  [.note ['E', '4'] 0 2 (some 64) [], .rest 0 1 []]

/-- C5 witness: the combination theorem at the concrete pair
`cA`, `cB`. -/
theorem c5_combination_witness :
    (∀ e ∈ cB, 0 ≤ e.offsetQ) ∧
      (combineStreams [cA, cB] = cA ++ cB.map (shiftElement (highestTime cA)) ∧
        (∀ e ∈ cB, highestTime cA ≤ (shiftElement (highestTime cA) e).offsetQ) ∧
        ∀ a ∈ cA, ∀ e ∈ cB,
          a.offsetQ + a.durQ ≤ (shiftElement (highestTime cA) e).offsetQ) :=
  ⟨by simp [cB, Element.offsetQ],
    c5_combination cA cB (by simp [cB, Element.offsetQ])⟩

/-- C6: a row with a bare `note_name` (no comma, not `"Rest"`) decodes
to a Note whose velocity is the row's velocity; when the velocity field
is missing/NaN (`none`), the row fails to decode, which aborts the
whole conversion. -/
theorem c6_note_velocity_required (r : Row)
    (h1 : ',' ∉ r.note_name) (h2 : r.note_name ≠ restName) :
    (∀ v : ℤ, r.velocity = some v →
        deserialize_row_to_element r =
          .ok (.note r.note_name r.start_time r.duration (some v) [])) ∧
      (r.velocity = none →
        deserialize_row_to_element r = .error "velocity") := by
  constructor
  · intro v hv
    unfold deserialize_row_to_element
    rw [if_neg h2, if_neg h1, hv]
  · intro hv
    unfold deserialize_row_to_element
    rw [if_neg h2, if_neg h1, hv]

/-- C6 witness: a Note row with velocity 64 decodes to a Note carrying
64; the same row without a velocity fails. -/
theorem c6_note_velocity_required_witness :
    deserialize_row_to_element ⟨['C', '4'], 0, 1, some 64, 120⟩ =
        .ok (.note ['C', '4'] 0 1 (some 64) []) ∧
      deserialize_row_to_element ⟨['D', '4'], 0, 1, none, 120⟩ =
        .error "velocity" :=
  ⟨(c6_note_velocity_required ⟨['C', '4'], 0, 1, some 64, 120⟩
      (by decide) (by decide)).1 64 rfl,
    (c6_note_velocity_required ⟨['D', '4'], 0, 1, none, 120⟩
      (by decide) (by decide)).2 rfl⟩

/-- C7: decoding reads the tempo from the first row only — an empty
table produces no tempo marker, a non-empty table's marker is the first
row's tempo, and rewriting the tempo of every later row does not change
the result of the conversion at all. -/
theorem c7_tempo_from_first_row :
    csv_to_midi_stream [] = .ok ⟨none, []⟩ ∧
    (∀ (r : Row) (rs : List Row) (st : MStream),
        csv_to_midi_stream (r :: rs) = .ok st →
          st.tempoMark = some r.tempo) ∧
    ∀ (g : Row → ℚ) (t : List Row),
      csv_to_midi_stream (retempoTail g t) = csv_to_midi_stream t := by
  refine ⟨rfl, ?_, ?_⟩
  · intro r rs st h
    unfold csv_to_midi_stream at h
    revert h
    cases hd : deserializeRows (r :: rs) with
    | error e => intro h; exact absurd h (by simp)
    | ok els =>
      intro h
      simp only [Except.ok.injEq] at h
      rw [← h]
      rfl
  · intro g t
    cases t with
    | nil => rfl
    | cons r rs =>
      show csv_to_midi_stream (r :: rs.map fun x => { x with tempo := g x }) =
        csv_to_midi_stream (r :: rs)
      cases hd : deserialize_row_to_element r with
      | error e =>
        unfold csv_to_midi_stream deserializeRows
        rw [hd]
      | ok el =>
        cases hrs : deserializeRows rs with
        | error e =>
          unfold csv_to_midi_stream deserializeRows
          rw [hd, deserializeRows_retempo g rs, hrs]
        | ok els =>
          unfold csv_to_midi_stream deserializeRows
          rw [hd, deserializeRows_retempo g rs, hrs]
          rfl

/-- C7 witness: the first-row-tempo property at a one-row table with
tempo 120. -/
theorem c7_tempo_from_first_row_witness :
    (MStream.mk (some 120) [.note ['C', '4'] 0 1 (some 64) []]).tempoMark =
      some (Row.mk ['C', '4'] 0 1 (some 64) 120).tempo :=
  c7_tempo_from_first_row.2.1 ⟨['C', '4'], 0, 1, some 64, 120⟩ []
    ⟨some 120, [.note ['C', '4'] 0 1 (some 64) []]⟩ rfl

/-- The streams the combiner's per-file loop decoded successfully, in
input order. -/
def decodeSuccesses (files : List (Except String (List Element))) :
    List (List Element) :=
  files.filterMap fun f =>
    match f with
    | .ok s => some s
    | .error _ => none

/-- How many per-file decode failures the combiner's loop logged. -/
def decodeFailures (files : List (Except String (List Element))) : ℕ :=
  (files.filter fun f =>
    match f with
    | .ok _ => false
    | .error _ => true).length

theorem combine_go (files : List (Except String (List Element)))
    (acc : List Element) (n : ℕ) :
    files.foldl (fun acc f =>
        match f with
        | .ok s => (acc.1 ++ s.map (shiftElement (highestTime acc.1)), acc.2)
        | .error _ => (acc.1, acc.2 + 1)) (acc, n) =
      ((files.filterMap fun f =>
          match f with
          | .ok s => some s
          | .error _ => none).foldl
        (fun combined s =>
          combined ++ s.map (shiftElement (highestTime combined))) acc,
       n + (files.filter fun f =>
          match f with
          | .ok _ => false
          | .error _ => true).length) := by
  induction files generalizing acc n with
  | nil => rfl
  | cons f fs ih =>
    cases f with
    | ok s =>
      simp only [List.foldl_cons, List.filterMap_cons, List.filter_cons]
      rw [ih]
      simp
    | error e =>
      simp only [List.foldl_cons, List.filterMap_cons, List.filter_cons]
      rw [ih, Prod.mk.injEq]
      refine ⟨rfl, ?_⟩
      simp
      omega

/-- C8: the combiner's result is exactly the combination of the
successfully decoded streams in input order — each failed file is
skipped after one logged error, and the count of logged errors is the
count of failed files. -/
theorem c8_combine_partial_success
    (files : List (Except String (List Element))) :
    combine_midis_run files =
      (combineStreams (decodeSuccesses files), decodeFailures files) := by
  unfold combine_midis_run combineStreams decodeSuccesses decodeFailures
  rw [combine_go files [] 0, Nat.zero_add]

/-- C9: a single-file conversion never raises to its caller; it either
writes the one complete converted artifact (and logs nothing) or
writes nothing and logs one error — in both directions. -/
theorem c9_single_file_all_or_nothing
    (decoded : Except String SourceStream)
    (parsed : Except String (List Row)) (w w' : Bool) :
    ((midi_to_csv_run decoded w).raisedToCaller = false ∧
      (((midi_to_csv_run decoded w).written = none ∧
          (midi_to_csv_run decoded w).loggedError = true) ∨
        ∃ s, decoded = .ok s ∧ w = true ∧
          (midi_to_csv_run decoded w).written = some (midi_to_csv_rows s) ∧
          (midi_to_csv_run decoded w).loggedError = false)) ∧
    ((csv_to_midi_run parsed w').raisedToCaller = false ∧
      (((csv_to_midi_run parsed w').written = none ∧
          (csv_to_midi_run parsed w').loggedError = true) ∨
        ∃ table st, parsed = .ok table ∧ csv_to_midi_stream table = .ok st ∧
          w' = true ∧ (csv_to_midi_run parsed w').written = some st ∧
          (csv_to_midi_run parsed w').loggedError = false)) := by
  constructor
  · cases decoded with
    | error e => exact ⟨rfl, Or.inl ⟨rfl, rfl⟩⟩
    | ok s =>
      cases w with
      | false => exact ⟨rfl, Or.inl ⟨rfl, rfl⟩⟩
      | true => exact ⟨rfl, Or.inr ⟨s, rfl, rfl, rfl, rfl⟩⟩
  · cases parsed with
    | error e => exact ⟨rfl, Or.inl ⟨rfl, rfl⟩⟩
    | ok table =>
      cases hst : csv_to_midi_stream table with
      | error e =>
        refine ⟨?_, Or.inl ⟨?_, ?_⟩⟩ <;>
          simp [csv_to_midi_run, csvToMidiBody, runCaught, hst]
      | ok st =>
        cases w' with
        | false =>
          refine ⟨?_, Or.inl ⟨?_, ?_⟩⟩ <;>
            simp [csv_to_midi_run, csvToMidiBody, runCaught, hst]
        | true =>
          refine ⟨?_, Or.inr ⟨table, st, rfl, hst, rfl, ?_, ?_⟩⟩ <;>
            simp [csv_to_midi_run, csvToMidiBody, runCaught, hst]

/-- C10: in directory mode with `combine_output` set and more than one
input file, the combined artifact is assembled from the content of
every file with the output extension present in the output directory at
combine time — so a pre-existing file (one no conversion of this
invocation wrote) contributes to the combined result, in both
directions. -/
theorem c10_combined_output_reads_directory
    (inputs : List (PStr × Except String SourceStream))
    (dir0 : List (PStr × List Row)) (p : PStr) (rows : List Row)
    (inputs' : List (PStr × Except String (List Row)))
    (dir0' : List (PStr × List Element)) (p' : PStr) (es : List Element)
    (hmem : (p, rows) ∈ dir0) (hext : csvExt p = true)
    (hfresh : ∀ q ∈ inputs, q.1 ≠ p) (hlen : 1 < inputs.length)
    (hmem' : (p', es) ∈ dir0') (hext' : midExt p' = true)
    (hfresh' : ∀ q ∈ inputs', q.1 ≠ p') (hlen' : 1 < inputs'.length) :
    (∃ sources : List (List Row),
        lookupFile (midi_to_csv_dir inputs dir0 true) combinedCsvName =
            some sources.flatten ∧
          sources =
            ((midiToCsvDirPhase1 inputs dir0).filter fun f => csvExt f.1).map
              Prod.snd ∧
          rows ∈ sources ∧ List.Sublist rows sources.flatten) ∧
      ∃ sources : List (List Element),
        lookupFile (csv_to_midi_dir inputs' dir0' true) combinedMidName =
            some (combineStreams sources) ∧
          sources =
            ((csvToMidiDirPhase1 inputs' dir0').filter fun f => midExt f.1).map
              Prod.snd ∧
          es ∈ sources := by
  have h1 : (p, rows) ∈ midiToCsvDirPhase1 inputs dir0 := by
    unfold midiToCsvDirPhase1
    exact mem_foldl_write midiFileOutput inputs dir0 p rows hmem hfresh
  have h3 : rows ∈
      ((midiToCsvDirPhase1 inputs dir0).filter fun f => csvExt f.1).map
        Prod.snd :=
    List.mem_map_of_mem Prod.snd (List.mem_filter.mpr ⟨h1, hext⟩)
  refine ⟨⟨_, ?_, rfl, h3, List.sublist_flatten_of_mem h3⟩, _, ?_, rfl, ?_⟩
  · unfold midi_to_csv_dir
    rw [if_pos ⟨rfl, hlen⟩]
    exact lookupFile_writeFile_self _ _ _
  · unfold csv_to_midi_dir
    rw [if_pos ⟨rfl, hlen'⟩]
    exact lookupFile_writeFile_self _ _ _
  · have h1' : (p', es) ∈ csvToMidiDirPhase1 inputs' dir0' := by
      unfold csvToMidiDirPhase1
      exact mem_foldl_write csvFileOutput inputs' dir0' p' es hmem' hfresh'
    have h2' : (p', es) ∈
        (csvToMidiDirPhase1 inputs' dir0').filter fun f => midExt f.1 :=
      List.mem_filter.mpr ⟨h1', hext'⟩
    exact List.mem_map_of_mem Prod.snd h2'

/-- Two MIDI inputs for the C10 witness, both decoding to the empty
stream. -/
def wIn1 : List (PStr × Except String SourceStream) :=
  [(['a', '.', 'c', 's', 'v'], .ok ⟨[], []⟩),
   (['b', '.', 'c', 's', 'v'], .ok ⟨[], []⟩)]

/-- A pre-existing CSV file in the output directory for the C10
witness. -/
def wDir0 : List (PStr × List Row) :=
  [(['p', '.', 'c', 's', 'v'], [⟨['C', '4'], 0, 1, some 64, 120⟩])]

/-- Two CSV inputs for the C10 witness, both holding the empty table. -/
def wIn2 : List (PStr × Except String (List Row)) :=
  [(['a', '.', 'm', 'i', 'd'], .ok []),
   (['b', '.', 'm', 'i', 'd'], .ok [])]

/-- A pre-existing MIDI file in the output directory for the C10
witness. -/
def wDir1 : List (PStr × List Element) :=
  [(['p', '.', 'm', 'i', 'd'], [wfNote])]

/-- C10 witness: the directory-listing property at a concrete two-file
batch over a directory holding one pre-existing file, in both
directions. -/
theorem c10_combined_output_reads_directory_witness :
    (∃ sources : List (List Row),
        lookupFile (midi_to_csv_dir wIn1 wDir0 true) combinedCsvName =
            some sources.flatten ∧
          sources =
            ((midiToCsvDirPhase1 wIn1 wDir0).filter fun f => csvExt f.1).map
              Prod.snd ∧
          [(⟨['C', '4'], 0, 1, some 64, 120⟩ : Row)] ∈ sources ∧
          List.Sublist [(⟨['C', '4'], 0, 1, some 64, 120⟩ : Row)]
            sources.flatten) ∧
      ∃ sources : List (List Element),
        lookupFile (csv_to_midi_dir wIn2 wDir1 true) combinedMidName =
            some (combineStreams sources) ∧
          sources =
            ((csvToMidiDirPhase1 wIn2 wDir1).filter fun f => midExt f.1).map
              Prod.snd ∧
          [wfNote] ∈ sources :=
  c10_combined_output_reads_directory wIn1 wDir0 ['p', '.', 'c', 's', 'v']
    [⟨['C', '4'], 0, 1, some 64, 120⟩] wIn2 wDir1 ['p', '.', 'm', 'i', 'd']
    [wfNote] (by decide) (by decide) (by decide) (by decide) (by decide)
    (by decide) (by decide) (by decide)

end Notapy
